import Mathlib

/-!
A shallow embedding of the kmon watcher (briansorahan/kmon).

The program polls a Kubernetes CronJob for its currently active Job,
hands each newly seen active Job to a monitor that polls the Job's pods,
streams the logs of the first running pod to a file, waits for the pod
to leave the `Running` phase, and records the pod's terminal status.

The embedding models the orchestrator API responses as explicit traces
(lists of responses, one per call the code makes) and the two loops
(`watch`'s GetJobsLoop and `monitor`'s ListPods loop) as recursive
functions over those traces, emitting an event log of the API calls and
writes they perform.
-/

namespace Kmon

deriving instance DecidableEq for Except

/-- Pod phases. `coreapi.PodPhase` is a string type in the source; the
zero value of a Go string is `""`, which is why the "empty Pod struct"
returned by `getRunning` has phase `""`. -/
def PodPending : String := "Pending"

/-- The `Running` phase (`coreapi.PodRunning`). -/
def PodRunning : String := "Running"

/-- The `Succeeded` phase (`coreapi.PodSucceeded`). -/
def PodSucceeded : String := "Succeeded"

/-- The `Failed` phase (`coreapi.PodFailed`). -/
def PodFailed : String := "Failed"

/-- The `Unknown` phase (`coreapi.PodUnknown`). -/
def PodUnknown : String := "Unknown"

/-- A worker unit (`coreapi.Pod`): the fields of the resource the
program reads — its name, its label map, and its lifecycle phase. -/
structure Pod where
  name : String
  labels : List (String × String)
  phase : String
deriving DecidableEq, Repr

/-- `getRunning` (main.go:174-181): return the first running pod in the
list and `true`, otherwise an empty Pod struct and `false`. -/
def getRunning : List Pod → Pod × Bool
  | [] => (⟨"", [], ""⟩, false)
  | pod :: rest =>
    if pod.phase = PodRunning then (pod, true) else getRunning rest

/-- The label-selector accumulation loop of `monitor` (main.go:100-105):
`labelSelector += sep + k + "=" + v; sep = ","`. -/
def labelSelectorGo : String → String → List (String × String) → String
  | acc, _, [] => acc
  | acc, sep, (k, v) :: rest =>
    labelSelectorGo (acc ++ sep ++ k ++ "=" ++ v) "," rest

/-- The worker selector derived from a Job's labels (main.go:100-105).
Both accumulators start as the empty Go string. -/
def labelSelectorOf (labels : List (String × String)) : String :=
  labelSelectorGo "" "" labels

/-- Split a character list on a separator character; the groups between
separators, in order. -/
def splitOnChar (sep : Char) : List Char → List (List Char)
  | [] => [[]]
  | c :: rest =>
    if c = sep then [] :: splitOnChar sep rest
    else
      match splitOnChar sep rest with
      | [] => [[c]]
      | g :: gs => (c :: g) :: gs

/-- Modelled from the spec: the label selector is "a conjunctive
key=value filter used to find worker units belonging to one execution"
(spec §6, glossary); an empty selector imposes no constraint, so the
listing is unfiltered. The repository consumes `pods.List` as an opaque
orchestrator call; this definition supplies its filtering semantics. -/
def selectorMatches (selector : String) (pod : Pod) : Bool :=
  if selector = "" then true
  else (splitOnChar ',' selector.data).all fun clause =>
    match splitOnChar '=' clause with
    | [k, v] => pod.labels.lookup (String.mk k) == some (String.mk v)
    | _ => false

/-- Modelled from the spec: `listWorkerUnits(ref, selector)` returns the
worker units of the namespace that match the selector (spec §6). -/
def listWorkerUnits (selector : String) (namespacePods : List Pod) : List Pod :=
  namespacePods.filter (selectorMatches selector)

/-- Whether `ctx.Done()` is ready at iteration `i` of a polling loop:
the shared cancellation signal fired at iteration `cancelAt` (if ever)
and stays fired from then on. -/
def doneReady (cancelAt : Option Nat) (i : Nat) : Bool :=
  match cancelAt with
  | some k => k ≤ i
  | none => false

/-- The API calls and local writes `monitor` performs, in order. -/
inductive MEvent
  | getJob
  | listPods
  | openStream (podName : String)
  | createLogFile (filename : String)
  | copyStream
  | getPod (podName : String)
  | createStatusFile (filename : String)
  | writeStatus (final : Pod)
deriving DecidableEq, Repr

/-- The typed errors `monitor` returns (main.go:96-167), one per
`fmt.Errorf` wrapping site. -/
inductive MonitorErr
  | gettingJob (e : String)
  | listingPods (e : String)
  | gettingLogStream (e : String)
  | creatingLogFile (e : String)
  | streamingLogs (e : String)
  | gettingPod (e : String)
  | creatingStatusFile (e : String)
deriving DecidableEq, Repr

/-- How a run of `monitor` over a finite environment trace ends:
it returned nil after persisting the final pod snapshot, it returned a
typed error, or the loop was still going when the trace or fuel ran
out (`looping` — the function did not return). -/
inductive MonitorOutcome
  | ok (final : Pod)
  | err (e : MonitorErr)
  | looping
deriving DecidableEq, Repr

/-- Outcome of the `PodFinishing` loop (main.go:144-155). -/
inductive PFOut
  | done (final : Pod)
  | err (e : String)
  | looping
deriving DecidableEq, Repr

/-- The `PodFinishing` loop (main.go:144-155): fetch the pod's own
status repeatedly; as long as the phase is still `Running`, fetch again;
the first non-Running fetch is kept as `final` and the loop exits. -/
def podFinishing (name : String) : List (Except String Pod) → List MEvent × PFOut
  | [] => ([], .looping)
  | .error e :: _ => ([.getPod name], .err e)
  | .ok p :: rest =>
    if p.phase = PodRunning then
      let r := podFinishing name rest
      (.getPod name :: r.1, r.2)
    else ([.getPod name], .done p)

/-- The environment for everything `monitor` does after it has found a
running pod (main.go:126-168): the log-stream open, the log-file
create, the `io.Copy`, the `PodFinishing` status gets, and the
status-file create. -/
structure StreamEnv where
  streamOpen : Except String Unit
  createLog : Except String Unit
  copyResult : Except String Unit
  finishGets : List (Except String Pod)
  createStatus : Except String Unit
deriving DecidableEq, Repr

/-- main.go:126-168: open the log stream of the running pod, create the
log file, copy the stream until it closes, run `PodFinishing`, then
create the status file and encode the final pod snapshot into it. -/
def runStream (runningPod : Pod) (se : StreamEnv) : List MEvent × MonitorOutcome :=
  match se.streamOpen with
  | .error e => ([.openStream runningPod.name], .err (.gettingLogStream e))
  | .ok _ =>
    match se.createLog with
    | .error e =>
      ([.openStream runningPod.name, .createLogFile (runningPod.name ++ ".logs")],
       .err (.creatingLogFile e))
    | .ok _ =>
      match se.copyResult with
      | .error e =>
        ([.openStream runningPod.name, .createLogFile (runningPod.name ++ ".logs"),
          .copyStream],
         .err (.streamingLogs e))
      | .ok _ =>
        let pf := podFinishing runningPod.name se.finishGets
        let pre := MEvent.openStream runningPod.name ::
          MEvent.createLogFile (runningPod.name ++ ".logs") ::
          MEvent.copyStream :: pf.1
        match pf.2 with
        | .err e => (pre, .err (.gettingPod e))
        | .looping => (pre, .looping)
        | .done final =>
          match se.createStatus with
          | .error e =>
            (pre ++ [.createStatusFile (runningPod.name ++ ".json")],
             .err (.creatingStatusFile e))
          | .ok _ =>
            (pre ++ [.createStatusFile (runningPod.name ++ ".json"),
                     .writeStatus final],
             .ok final)

/-- The `ListPods` loop of `monitor` (main.go:108-170). Each iteration
first runs the `select`: when `ctx.Done()` is ready its (empty) case is
taken, so the loop body is skipped and the loop spins without issuing
any API call and without returning; otherwise the `default` case lists
the pods (the orchestrator filters the namespace snapshot by the
selector), and either sleeps and retries (no running pod) or hands the
first running pod to the streaming phase. `fuel` bounds how many
iterations of the loop the embedding explores. -/
def listPodsLoop (selector : String) (cancelAt : Option Nat) (se : StreamEnv) :
    Nat → List (Except String (List Pod)) → Nat →
    List MEvent × MonitorOutcome
  | _, _, 0 => ([], .looping)
  | i, snaps, fuel + 1 =>
    if doneReady cancelAt i then
      listPodsLoop selector cancelAt se (i + 1) snaps fuel
    else
      match snaps with
      | [] => ([], .looping)
      | .error e :: _ => ([.listPods], .err (.listingPods e))
      | .ok ns :: rest =>
        let sel := getRunning (listWorkerUnits selector ns)
        if sel.2 then
          let r := runStream sel.1 se
          (.listPods :: r.1, r.2)
        else
          let r := listPodsLoop selector cancelAt se (i + 1) rest fuel
          (.listPods :: r.1, r.2)

/-- The full environment of one `monitor` call: the Job get, one
namespace snapshot per pod listing, the streaming-phase environment,
when (if ever) the shared cancellation signal fires, and the iteration
fuel. -/
structure MonitorEnv where
  jobResult : Except String (List (String × String))
  snapshots : List (Except String (List Pod))
  streamEnv : StreamEnv
  cancelAt : Option Nat
  fuel : Nat
deriving DecidableEq, Repr

/-- `monitor` (main.go:95-171): get the Job, derive the label selector
from its labels, then run the `ListPods` loop. -/
def monitor (env : MonitorEnv) : List MEvent × MonitorOutcome :=
  match env.jobResult with
  | .error e => ([.getJob], .err (.gettingJob e))
  | .ok labels =>
    let r := listPodsLoop (labelSelectorOf labels) env.cancelAt env.streamEnv
      0 env.snapshots env.fuel
    (.getJob :: r.1, r.2)

/-- One response of the coarse-grained CronJob poll
(`client.BatchV1().CronJobs(namespace).Get`, main.go:69): a transport
error or the names of the currently active Jobs
(`cronJob.Status.Active`). -/
abbrev CronPoll := Except String (List String)

/-- The events `watch` produces: CronJob polls, the 5-second sleeps, a
transition (the update of the pipeline-local `activeJob` variable), and
the start, inner events and end of a handed-off monitor run. -/
inductive WEvent
  | getCronJob
  | sleepCoarse
  | transition (id : String)
  | monitorStart (id : String)
  | monitorEvent (id : String) (e : MEvent)
  | monitorEnd (id : String) (final : Pod)
deriving DecidableEq, Repr

/-- The fatal conditions `watch` hits (main.go:62-93): a CronJob fetch
failure (line 71), the more-than-one-active invariant violation (line
80), or a typed error returned by `monitor` (line 88). Each of them is
passed to Go's `panic`. -/
inductive WatchPanic
  | fetchErr (e : String)
  | invariantViolation (numActive : Nat)
  | monitorErr (e : MonitorErr)
deriving DecidableEq, Repr

/-- How a run of `watch` over a finite trace ends. `panicked` aborts
the whole process and carries the value of `activeJob` at that moment.
`returned` stands for `watch` returning an error value to the errgroup
supervisor: the Go function's signature allows it, but no code path in
`watch` produces it (every failure is passed to `panic` instead), so no
case of `watchGo` yields this constructor. `outOfTrace` means the loop
was still polling when the trace ran out, and `stuck` means a
handed-off monitor never returned within its environment. -/
inductive WatchOutcome
  | panicked (lastSeen : String) (e : WatchPanic)
  | returned (e : WatchPanic)
  | outOfTrace (lastSeen : String)
  | stuck (lastSeen : String)
deriving DecidableEq, Repr

/-- The `GetJobsLoop` of `watch` (main.go:67-92), with the
pipeline-local `activeJob` variable made explicit as `lastSeen` (its Go
zero value is `""`). Each iteration fetches the CronJob (panicking on
failure), then: zero active Jobs → sleep and retry; two or more →
panic with the invariant violation; exactly one, equal to `lastSeen` →
sleep and retry; exactly one, different → update `lastSeen` and run
`monitor` to completion (panicking on its error) before sleeping and
polling again. `menvs` supplies one monitor environment per handoff. -/
def watchGo :
    String → List CronPoll → List MonitorEnv → List WEvent × WatchOutcome
  | lastSeen, [], _ => ([], .outOfTrace lastSeen)
  | lastSeen, .error e :: _, _ =>
    ([.getCronJob], .panicked lastSeen (.fetchErr e))
  | lastSeen, .ok [] :: rest, menvs =>
    let r := watchGo lastSeen rest menvs
    (.getCronJob :: .sleepCoarse :: r.1, r.2)
  | lastSeen, .ok [a] :: rest, menvs =>
    if a = lastSeen then
      let r := watchGo lastSeen rest menvs
      (.getCronJob :: .sleepCoarse :: r.1, r.2)
    else
      match menvs with
      | [] => ([.getCronJob, .transition a, .monitorStart a], .stuck a)
      | menv :: mrest =>
        match monitor menv with
        | (mevs, .err me) =>
          (.getCronJob :: .transition a :: .monitorStart a ::
            mevs.map (.monitorEvent a),
           .panicked a (.monitorErr me))
        | (mevs, .looping) =>
          (.getCronJob :: .transition a :: .monitorStart a ::
            mevs.map (.monitorEvent a),
           .stuck a)
        | (mevs, .ok final) =>
          let r := watchGo a rest mrest
          (.getCronJob :: .transition a :: .monitorStart a ::
            mevs.map (.monitorEvent a) ++
            .monitorEnd a final :: .sleepCoarse :: r.1,
           r.2)
  | lastSeen, .ok (_ :: _ :: rest') :: _, _ =>
    ([.getCronJob], .panicked lastSeen (.invariantViolation (rest'.length + 2)))

/-- The events of `k` idle `watch` iterations (poll, then sleep). -/
def idleEvents : Nat → List WEvent
  | 0 => []
  | k + 1 => .getCronJob :: .sleepCoarse :: idleEvents k

/-- How many transition events carrying `id` an event trace holds. -/
def countTransitions (id : String) : List WEvent → Nat
  | [] => 0
  | WEvent.transition a :: rest =>
    (if a = id then 1 else 0) + countTransitions id rest
  | _ :: rest => countTransitions id rest

/-- Whether a `watch` outcome is an error value returned to the
errgroup supervisor (as opposed to a `panic` that bypasses it). -/
def reachesSupervisor : WatchOutcome → Bool
  | .returned _ => true
  | _ => false

/-- The status line the earlier revision's `main` appends for a
resolved execution: `fmt.Fprintf(f, "%s=%s\n", res.name, res.phase)`. -/
def statusLine (name phase : String) : String :=
  name ++ "=" ++ phase ++ "\n"

/-- Split a character list at its first `'='`: the part before and the
part after. `none` when there is no `'='`. -/
def splitAtEq : List Char → Option (List Char × List Char)
  | [] => none
  | c :: rest =>
    if c = '=' then some ([], rest)
    else
      match splitAtEq rest with
      | some (l, r) => some (c :: l, r)
      | none => none

/-- Strip a trailing newline; `none` when the list does not end in one. -/
def dropLastNewline (l : List Char) : Option (List Char) :=
  match l.reverse with
  | '\n' :: restRev => some restRev.reverse
  | _ => none

/-- Modelled from the spec: parsing a persisted status record of the
form `<worker-unit-name>=<phase>` (spec §6) back into the name and the
phase. The repository only writes these records and never reads them,
so the reader follows the spec's stated line form: the name is what
stands before the (first) `=`, the phase what stands between it and the
final newline. -/
def parseStatusLine (line : String) : Option (String × String) :=
  match splitAtEq line.data with
  | none => none
  | some (nm, rest) =>
    match dropLastNewline rest with
    | none => none
    | some ph => some (String.mk nm, String.mk ph)

/-! ## Helper lemmas -/

/-- Idle iterations contain no transition event. -/
theorem countTransitions_idleEvents (id : String) (k : Nat) :
    countTransitions id (idleEvents k) = 0 := by
  induction k with
  | zero => rfl
  | succ k ih => simp [idleEvents, countTransitions, ih]

/-- Splitting at the first `'='` recovers the two sides of a list built
around one, provided the left side holds no `'='` of its own. -/
theorem splitAtEq_append (l1 l2 : List Char) (h : '=' ∉ l1) :
    splitAtEq (l1 ++ '=' :: l2) = some (l1, l2) := by
  induction l1 with
  | nil => simp [splitAtEq]
  | cons c rest ih =>
    have hc : ¬c = '=' := fun hc => h (hc ▸ List.mem_cons_self c rest)
    have hrest : '=' ∉ rest := fun hm => h (List.mem_cons_of_mem c hm)
    simp [splitAtEq, hc, ih hrest]

/-- Stripping the trailing newline recovers the list it was appended
to. -/
theorem dropLastNewline_append (l : List Char) :
    dropLastNewline (l ++ ['\n']) = some l := by
  simp [dropLastNewline]

/-- When the `PodFinishing` loop exits with a final pod, that pod is
non-Running, it is the first non-Running successful fetch of the
status-get trace, and every fetch before it reported `Running`. -/
theorem podFinishing_done (name : String) :
    ∀ (fg : List (Except String Pod)) (evs : List MEvent) (final : Pod),
    podFinishing name fg = (evs, PFOut.done final) →
    final.phase ≠ PodRunning
    ∧ ∃ pre rest, fg = pre ++ Except.ok final :: rest
      ∧ ∀ x ∈ pre, ∃ q, x = Except.ok q ∧ q.phase = PodRunning := by
  intro fg
  induction fg with
  | nil => intro evs final h; simp [podFinishing] at h
  | cons x rest ih =>
    intro evs final h
    cases x with
    | error e => simp [podFinishing] at h
    | ok p =>
      by_cases hp : p.phase = PodRunning
      · rcases hrec : podFinishing name rest with ⟨evs', out'⟩
        simp [podFinishing, hp, hrec] at h
        obtain ⟨hph, pre, rest', hdec, hpre⟩ :=
          ih evs' final (by rw [hrec, h.2])
        refine ⟨hph, Except.ok p :: pre, rest', by simp [hdec], ?_⟩
        intro x hx
        rcases List.mem_cons.mp hx with hx | hx
        · exact ⟨p, hx, hp⟩
        · exact hpre x hx
      · simp [podFinishing, hp] at h
        obtain ⟨-, hfin⟩ := h
        subst hfin
        exact ⟨hp, [], rest, rfl, by simp⟩

/-- When the streaming phase resolves, the resolution came out of the
`PodFinishing` loop: the final pod is non-Running, it is the first
non-Running status fetch, and the status record for it is written. -/
theorem runStream_ok (p : Pod) (se : StreamEnv) (evs : List MEvent)
    (final : Pod) (h : runStream p se = (evs, MonitorOutcome.ok final)) :
    MEvent.writeStatus final ∈ evs
    ∧ final.phase ≠ PodRunning
    ∧ ∃ pre rest, se.finishGets = pre ++ Except.ok final :: rest
      ∧ ∀ x ∈ pre, ∃ q, x = Except.ok q ∧ q.phase = PodRunning := by
  obtain ⟨so, cl, cp, fg, cs⟩ := se
  cases so with
  | error e => simp [runStream] at h
  | ok u =>
    cases cl with
    | error e => simp [runStream] at h
    | ok u2 =>
      cases cp with
      | error e => simp [runStream] at h
      | ok u3 =>
        rcases hpf : podFinishing p.name fg with ⟨pevs, pout⟩
        cases pout with
        | err e => simp [runStream, hpf] at h
        | looping => simp [runStream, hpf] at h
        | done fin =>
          cases cs with
          | error e => simp [runStream, hpf] at h
          | ok u4 =>
            simp only [runStream, hpf] at h
            have hev := congrArg Prod.fst h
            have hout := congrArg Prod.snd h
            simp only [] at hev hout
            have hfin : fin = final := by
              simpa using hout
            subst hfin
            refine ⟨?_, podFinishing_done p.name fg pevs fin hpf⟩
            rw [← hev]
            simp

/-- Step equation: a cancelled iteration of the pod-list loop skips
the loop body and spins. -/
theorem listPodsLoop_cancelled (selector : String) (cancelAt : Option Nat)
    (se : StreamEnv) (i : Nat) (snaps : List (Except String (List Pod)))
    (fuel : Nat) (hd : doneReady cancelAt i = true) :
    listPodsLoop selector cancelAt se i snaps (fuel + 1)
      = listPodsLoop selector cancelAt se (i + 1) snaps fuel := by
  simp only [listPodsLoop]
  rw [if_pos hd]

/-- Step equation: an uncancelled iteration with an exhausted snapshot
trace leaves the loop still going. -/
theorem listPodsLoop_nil (selector : String) (cancelAt : Option Nat)
    (se : StreamEnv) (i fuel : Nat)
    (hd : ¬doneReady cancelAt i = true) :
    listPodsLoop selector cancelAt se i [] (fuel + 1)
      = ([], MonitorOutcome.looping) := by
  simp only [listPodsLoop]
  rw [if_neg hd]

/-- Step equation: an uncancelled iteration whose pod listing fails
returns the typed listing error at once. -/
theorem listPodsLoop_listErr (selector : String) (cancelAt : Option Nat)
    (se : StreamEnv) (i fuel : Nat) (e : String)
    (rest : List (Except String (List Pod)))
    (hd : ¬doneReady cancelAt i = true) :
    listPodsLoop selector cancelAt se i (Except.error e :: rest) (fuel + 1)
      = ([MEvent.listPods], MonitorOutcome.err (MonitorErr.listingPods e)) := by
  simp only [listPodsLoop]
  rw [if_neg hd]

/-- Step equation: an uncancelled iteration whose filtered listing has
no running pod sleeps and retries on the remaining snapshots. -/
theorem listPodsLoop_noRunning (selector : String) (cancelAt : Option Nat)
    (se : StreamEnv) (i fuel : Nat) (ns : List Pod)
    (rest : List (Except String (List Pod))) (rp : Pod)
    (hd : ¬doneReady cancelAt i = true)
    (hgr : getRunning (listWorkerUnits selector ns) = (rp, false)) :
    listPodsLoop selector cancelAt se i (Except.ok ns :: rest) (fuel + 1)
      = (MEvent.listPods ::
          (listPodsLoop selector cancelAt se (i + 1) rest fuel).1,
         (listPodsLoop selector cancelAt se (i + 1) rest fuel).2) := by
  simp only [listPodsLoop]
  rw [if_neg hd]
  simp [hgr]

/-- Step equation: an uncancelled iteration whose filtered listing has
a running pod hands that pod to the streaming phase. -/
theorem listPodsLoop_running (selector : String) (cancelAt : Option Nat)
    (se : StreamEnv) (i fuel : Nat) (ns : List Pod)
    (rest : List (Except String (List Pod))) (rp : Pod)
    (hd : ¬doneReady cancelAt i = true)
    (hgr : getRunning (listWorkerUnits selector ns) = (rp, true)) :
    listPodsLoop selector cancelAt se i (Except.ok ns :: rest) (fuel + 1)
      = (MEvent.listPods :: (runStream rp se).1, (runStream rp se).2) := by
  simp only [listPodsLoop]
  rw [if_neg hd]
  simp [hgr]

/-- When the pod-list loop resolves with a final pod, the resolution
went through the streaming phase and the `PodFinishing` loop: the final
pod is non-Running and is the first non-Running status fetch. -/
theorem listPodsLoop_ok (selector : String) (cancelAt : Option Nat)
    (se : StreamEnv) (final : Pod) :
    ∀ (fuel i : Nat) (snaps : List (Except String (List Pod)))
      (evs : List MEvent),
    listPodsLoop selector cancelAt se i snaps fuel
      = (evs, MonitorOutcome.ok final) →
    MEvent.writeStatus final ∈ evs
    ∧ final.phase ≠ PodRunning
    ∧ ∃ pre rest, se.finishGets = pre ++ Except.ok final :: rest
      ∧ ∀ x ∈ pre, ∃ q, x = Except.ok q ∧ q.phase = PodRunning := by
  intro fuel
  induction fuel with
  | zero => intro i snaps evs h; simp [listPodsLoop] at h
  | succ fuel ih =>
    intro i snaps evs h
    by_cases hd : doneReady cancelAt i = true
    · rw [listPodsLoop_cancelled selector cancelAt se i snaps fuel hd] at h
      exact ih (i + 1) snaps evs h
    · cases snaps with
      | nil =>
        rw [listPodsLoop_nil selector cancelAt se i fuel hd] at h
        simp at h
      | cons s rest =>
        cases s with
        | error e =>
          rw [listPodsLoop_listErr selector cancelAt se i fuel e rest hd] at h
          simp at h
        | ok ns =>
          rcases hgr : getRunning (listWorkerUnits selector ns) with ⟨rp, hasR⟩
          cases hasR with
          | false =>
            rw [listPodsLoop_noRunning selector cancelAt se i fuel ns rest
              rp hd hgr] at h
            rw [Prod.mk.injEq] at h
            obtain ⟨hev, hout⟩ := h
            obtain ⟨hmem, hrest⟩ := ih (i + 1) rest
              (listPodsLoop selector cancelAt se (i + 1) rest fuel).1
              (by rw [← hout])
            refine ⟨?_, hrest⟩
            rw [← hev]
            exact List.mem_cons_of_mem _ hmem
          | true =>
            rw [listPodsLoop_running selector cancelAt se i fuel ns rest
              rp hd hgr] at h
            rw [Prod.mk.injEq] at h
            obtain ⟨hev, hout⟩ := h
            obtain ⟨hmem, hrest⟩ := runStream_ok rp se
              (runStream rp se).1 final (by rw [← hout])
            refine ⟨?_, hrest⟩
            rw [← hev]
            exact List.mem_cons_of_mem _ hmem

/-- Whatever the streaming phase goes on to do, its very first act is
opening the log stream of the pod it was handed. -/
theorem runStream_head (p : Pod) (se : StreamEnv) :
    ∃ tail, (runStream p se).1 = MEvent.openStream p.name :: tail := by
  obtain ⟨so, cl, cp, fg, cs⟩ := se
  rcases hpf : podFinishing p.name fg with ⟨pevs, pout⟩
  cases so with
  | error e => exact ⟨[], rfl⟩
  | ok u =>
    cases cl with
    | error e => exact ⟨_, rfl⟩
    | ok u2 =>
      cases cp with
      | error e => exact ⟨_, rfl⟩
      | ok u3 =>
        cases pout with
        | err e =>
          exact ⟨MEvent.createLogFile (p.name ++ ".logs") ::
            MEvent.copyStream :: pevs, by simp [runStream, hpf]⟩
        | looping =>
          exact ⟨MEvent.createLogFile (p.name ++ ".logs") ::
            MEvent.copyStream :: pevs, by simp [runStream, hpf]⟩
        | done fin =>
          cases cs with
          | error e =>
            exact ⟨MEvent.createLogFile (p.name ++ ".logs") ::
              MEvent.copyStream ::
              (pevs ++ [MEvent.createStatusFile (p.name ++ ".json")]),
              by simp [runStream, hpf]⟩
          | ok u4 =>
            exact ⟨MEvent.createLogFile (p.name ++ ".logs") ::
              MEvent.copyStream ::
              (pevs ++ [MEvent.createStatusFile (p.name ++ ".json"),
                MEvent.writeStatus fin]),
              by simp [runStream, hpf]⟩

/-- An unfiltered listing: the empty selector matches every pod. -/
theorem listWorkerUnits_empty (namespacePods : List Pod) :
    listWorkerUnits "" namespacePods = namespacePods := by
  induction namespacePods with
  | nil => rfl
  | cons p rest ih => simp [listWorkerUnits, selectorMatches] at ih ⊢

/-- Transition counting distributes over trace concatenation. -/
theorem countTransitions_append (id : String) (l1 l2 : List WEvent) :
    countTransitions id (l1 ++ l2)
      = countTransitions id l1 + countTransitions id l2 := by
  induction l1 with
  | nil => simp [countTransitions]
  | cons e rest ih =>
    cases e <;> simp [countTransitions, ih]
    omega

/-- Events forwarded from a monitor run are never transitions. -/
theorem countTransitions_map_monitorEvent (id a : String)
    (mevs : List MEvent) :
    countTransitions id (mevs.map (WEvent.monitorEvent a)) = 0 := by
  induction mevs with
  | nil => rfl
  | cons e rest ih => simp [countTransitions, ih]

/-- Step equation: polls that repeat the last-seen identity are pure
idle iterations, whatever comes afterwards. -/
theorem watchGo_replicate_same (x : String) (k : Nat) (rest : List CronPoll)
    (menvs : List MonitorEnv) :
    watchGo x (List.replicate k (Except.ok [x]) ++ rest) menvs
      = (idleEvents k ++ (watchGo x rest menvs).1,
         (watchGo x rest menvs).2) := by
  induction k with
  | zero => simp [idleEvents]
  | succ k ih => simp [List.replicate_succ, watchGo, idleEvents, ih]

/-- Step equation: a poll whose single active Job differs from the
last-seen identity fires a transition, runs the handed-off monitor to
completion, then sleeps and resumes polling with the new identity. -/
theorem watchGo_transition (lastSeen a : String) (rest : List CronPoll)
    (menv : MonitorEnv) (mrest : List MonitorEnv) (mevs : List MEvent)
    (final : Pod) (hne : ¬a = lastSeen)
    (hmon : monitor menv = (mevs, MonitorOutcome.ok final)) :
    watchGo lastSeen (Except.ok [a] :: rest) (menv :: mrest)
      = (WEvent.getCronJob :: WEvent.transition a :: WEvent.monitorStart a ::
          mevs.map (WEvent.monitorEvent a) ++
          WEvent.monitorEnd a final :: WEvent.sleepCoarse ::
          (watchGo a rest mrest).1,
         (watchGo a rest mrest).2) := by
  simp [watchGo, hne, hmon]

/-- The full event trace of one A-then-B handoff run: the transition
to `A`, `A`'s monitor bracketed by its start and end markers, `k` idle
repetitions of `A`, then the same for `B` with `l` trailing
repetitions. -/
def handoffTrace (A B : String) (k l : Nat) (mevsA mevsB : List MEvent)
    (finA finB : Pod) : List WEvent :=
  WEvent.getCronJob :: WEvent.transition A :: WEvent.monitorStart A ::
    mevsA.map (WEvent.monitorEvent A) ++
    WEvent.monitorEnd A finA :: WEvent.sleepCoarse ::
    (idleEvents k ++
      WEvent.getCronJob :: WEvent.transition B :: WEvent.monitorStart B ::
      mevsB.map (WEvent.monitorEvent B) ++
      WEvent.monitorEnd B finB :: WEvent.sleepCoarse :: idleEvents l)

/-! ## Claims -/

/-- C1: whenever `monitor` resolves with a status record
(main.go:140-168), the recorded final pod is the first status fetch of
the post-stream `PodFinishing` loop whose phase is not `Running`; every
fetch before it reported `Running` and was polled past, the recorded
phase is never `Running`, and the status write for exactly that final
snapshot appears in the event trace. -/
theorem monitor_resolves_only_non_running (env : MonitorEnv)
    (evs : List MEvent) (final : Pod)
    (h : monitor env = (evs, MonitorOutcome.ok final)) :
    final.phase ≠ PodRunning
    ∧ MEvent.writeStatus final ∈ evs
    ∧ ∃ pre rest, env.streamEnv.finishGets = pre ++ Except.ok final :: rest
      ∧ ∀ x ∈ pre, ∃ q, x = Except.ok q ∧ q.phase = PodRunning := by
  rcases henv : env.jobResult with e | labels
  · simp [monitor, henv] at h
  · rcases hl : listPodsLoop (labelSelectorOf labels) env.cancelAt
      env.streamEnv 0 env.snapshots env.fuel with ⟨levs, lout⟩
    simp only [monitor, henv, hl] at h
    rw [Prod.mk.injEq] at h
    obtain ⟨hev, hout⟩ := h
    obtain ⟨hmem, hph, hdec⟩ := listPodsLoop_ok (labelSelectorOf labels)
      env.cancelAt env.streamEnv final env.fuel 0 env.snapshots levs
      (by rw [hl, hout])
    exact ⟨hph, by rw [← hev]; exact List.mem_cons_of_mem _ hmem, hdec⟩

/-- Witness for C1 at a concrete input: one snapshot with a running pod
`p1`, whose status then reads `Succeeded` on the first post-stream
fetch; the monitor resolves with phase `Succeeded`. -/
theorem monitor_resolves_only_non_running_witness :
    (Pod.mk "p1" [("k", "v")] "Succeeded").phase ≠ PodRunning
    ∧ MEvent.writeStatus (Pod.mk "p1" [("k", "v")] "Succeeded") ∈
        [MEvent.getJob, MEvent.listPods, MEvent.openStream "p1",
         MEvent.createLogFile "p1.logs", MEvent.copyStream,
         MEvent.getPod "p1", MEvent.createStatusFile "p1.json",
         MEvent.writeStatus (Pod.mk "p1" [("k", "v")] "Succeeded")]
    ∧ ∃ pre rest,
        ([Except.ok (Pod.mk "p1" [("k", "v")] "Succeeded")] :
            List (Except String Pod))
          = pre ++ Except.ok (Pod.mk "p1" [("k", "v")] "Succeeded") :: rest
        ∧ ∀ x ∈ pre, ∃ q, x = Except.ok q ∧ q.phase = PodRunning :=
  monitor_resolves_only_non_running
    ⟨Except.ok [("k", "v")],
     [Except.ok [Pod.mk "p1" [("k", "v")] "Running"]],
     ⟨Except.ok (), Except.ok (), Except.ok (),
      [Except.ok (Pod.mk "p1" [("k", "v")] "Succeeded")], Except.ok ()⟩,
     none, 1⟩
    [MEvent.getJob, MEvent.listPods, MEvent.openStream "p1",
     MEvent.createLogFile "p1.logs", MEvent.copyStream,
     MEvent.getPod "p1", MEvent.createStatusFile "p1.json",
     MEvent.writeStatus (Pod.mk "p1" [("k", "v")] "Succeeded")]
    (Pod.mk "p1" [("k", "v")] "Succeeded")
    (by decide)

/-- C2: over a poll run whose single active identity changes from `A`
(seen `1 + k` times, starting from the empty last-seen value) to `B`
(seen `1 + l` times), `watch` (main.go:82-92) fires exactly one
transition carrying `B`: the full event trace is the `handoffTrace`, in
which `A`'s monitor runs to its end marker — its status record returned
— strictly before `B`'s monitor start marker, and no CronJob poll
happens between a monitor's start and its end (the tracker blocks on
the synchronous `monitor` call). -/
theorem tracker_single_transition_sequential_handoff
    (A B : String) (k l : Nat) (envA envB : MonitorEnv)
    (mevsA mevsB : List MEvent) (finA finB : Pod)
    (hA : ¬A = "") (hBA : ¬B = A)
    (hmA : monitor envA = (mevsA, MonitorOutcome.ok finA))
    (hmB : monitor envB = (mevsB, MonitorOutcome.ok finB)) :
    watchGo ""
        (Except.ok [A] ::
          (List.replicate k (Except.ok [A]) ++
            Except.ok [B] :: List.replicate l (Except.ok [B])))
        [envA, envB]
      = (handoffTrace A B k l mevsA mevsB finA finB,
         WatchOutcome.outOfTrace B)
    ∧ countTransitions B (handoffTrace A B k l mevsA mevsB finA finB) = 1
    ∧ countTransitions A (handoffTrace A B k l mevsA mevsB finA finB) = 1
    ∧ ∃ t1 t2, handoffTrace A B k l mevsA mevsB finA finB
        = t1 ++ WEvent.monitorEnd A finA :: t2
        ∧ WEvent.monitorStart B ∉ t1 ∧ WEvent.monitorStart B ∈ t2 := by
  have hAB : ¬A = B := fun h => hBA h.symm
  refine ⟨?_, ?_, ?_, ?_⟩
  · have h3 : watchGo B (List.replicate l (Except.ok [B])) []
        = (idleEvents l, WatchOutcome.outOfTrace B) := by
      have h := watchGo_replicate_same B l [] []
      simpa [watchGo] using h
    have h2 : watchGo A
        (Except.ok [B] :: List.replicate l (Except.ok [B])) [envB]
        = (WEvent.getCronJob :: WEvent.transition B ::
            WEvent.monitorStart B :: mevsB.map (WEvent.monitorEvent B) ++
            WEvent.monitorEnd B finB :: WEvent.sleepCoarse :: idleEvents l,
           WatchOutcome.outOfTrace B) := by
      rw [watchGo_transition A B (List.replicate l (Except.ok [B]))
        envB [] mevsB finB hBA hmB, h3]
    have h1 : watchGo A
        (List.replicate k (Except.ok [A]) ++
          Except.ok [B] :: List.replicate l (Except.ok [B])) [envB]
        = (idleEvents k ++
            (WEvent.getCronJob :: WEvent.transition B ::
              WEvent.monitorStart B :: mevsB.map (WEvent.monitorEvent B) ++
              WEvent.monitorEnd B finB :: WEvent.sleepCoarse ::
              idleEvents l),
           WatchOutcome.outOfTrace B) := by
      rw [watchGo_replicate_same A k
        (Except.ok [B] :: List.replicate l (Except.ok [B])) [envB], h2]
    rw [watchGo_transition "" A
      (List.replicate k (Except.ok [A]) ++
        Except.ok [B] :: List.replicate l (Except.ok [B]))
      envA [envB] mevsA finA hA hmA, h1]
    simp [handoffTrace]
  · simp [handoffTrace, countTransitions, countTransitions_append,
      countTransitions_map_monitorEvent, countTransitions_idleEvents, hAB]
  · simp [handoffTrace, countTransitions, countTransitions_append,
      countTransitions_map_monitorEvent, countTransitions_idleEvents, hBA]
  · refine ⟨WEvent.getCronJob :: WEvent.transition A ::
      WEvent.monitorStart A :: mevsA.map (WEvent.monitorEvent A),
      WEvent.sleepCoarse ::
        (idleEvents k ++
          WEvent.getCronJob :: WEvent.transition B ::
          WEvent.monitorStart B :: mevsB.map (WEvent.monitorEvent B) ++
          WEvent.monitorEnd B finB :: WEvent.sleepCoarse :: idleEvents l),
      by simp [handoffTrace], ?_, by simp⟩
    simp [hBA]

/-- Witness for C2 at a concrete input: the active identity changes
from `a` to `b` with no idle repetitions; both handoffs resolve with
pod `p1` succeeding. -/
theorem tracker_single_transition_sequential_handoff_witness :
    watchGo ""
        (Except.ok ["a"] ::
          (List.replicate 0 (Except.ok ["a"]) ++
            Except.ok ["b"] :: List.replicate 0 (Except.ok ["b"])))
        [⟨Except.ok [("k", "v")],
          [Except.ok [Pod.mk "p1" [("k", "v")] "Running"]],
          ⟨Except.ok (), Except.ok (), Except.ok (),
           [Except.ok (Pod.mk "p1" [("k", "v")] "Succeeded")], Except.ok ()⟩,
          none, 1⟩,
         ⟨Except.ok [("k", "v")],
          [Except.ok [Pod.mk "p1" [("k", "v")] "Running"]],
          ⟨Except.ok (), Except.ok (), Except.ok (),
           [Except.ok (Pod.mk "p1" [("k", "v")] "Succeeded")], Except.ok ()⟩,
          none, 1⟩]
      = (handoffTrace "a" "b" 0 0
          [MEvent.getJob, MEvent.listPods, MEvent.openStream "p1",
           MEvent.createLogFile "p1.logs", MEvent.copyStream,
           MEvent.getPod "p1", MEvent.createStatusFile "p1.json",
           MEvent.writeStatus (Pod.mk "p1" [("k", "v")] "Succeeded")]
          [MEvent.getJob, MEvent.listPods, MEvent.openStream "p1",
           MEvent.createLogFile "p1.logs", MEvent.copyStream,
           MEvent.getPod "p1", MEvent.createStatusFile "p1.json",
           MEvent.writeStatus (Pod.mk "p1" [("k", "v")] "Succeeded")]
          (Pod.mk "p1" [("k", "v")] "Succeeded")
          (Pod.mk "p1" [("k", "v")] "Succeeded"),
         WatchOutcome.outOfTrace "b")
    ∧ countTransitions "b" (handoffTrace "a" "b" 0 0
        [MEvent.getJob, MEvent.listPods, MEvent.openStream "p1",
         MEvent.createLogFile "p1.logs", MEvent.copyStream,
         MEvent.getPod "p1", MEvent.createStatusFile "p1.json",
         MEvent.writeStatus (Pod.mk "p1" [("k", "v")] "Succeeded")]
        [MEvent.getJob, MEvent.listPods, MEvent.openStream "p1",
         MEvent.createLogFile "p1.logs", MEvent.copyStream,
         MEvent.getPod "p1", MEvent.createStatusFile "p1.json",
         MEvent.writeStatus (Pod.mk "p1" [("k", "v")] "Succeeded")]
        (Pod.mk "p1" [("k", "v")] "Succeeded")
        (Pod.mk "p1" [("k", "v")] "Succeeded")) = 1
    ∧ countTransitions "a" (handoffTrace "a" "b" 0 0
        [MEvent.getJob, MEvent.listPods, MEvent.openStream "p1",
         MEvent.createLogFile "p1.logs", MEvent.copyStream,
         MEvent.getPod "p1", MEvent.createStatusFile "p1.json",
         MEvent.writeStatus (Pod.mk "p1" [("k", "v")] "Succeeded")]
        [MEvent.getJob, MEvent.listPods, MEvent.openStream "p1",
         MEvent.createLogFile "p1.logs", MEvent.copyStream,
         MEvent.getPod "p1", MEvent.createStatusFile "p1.json",
         MEvent.writeStatus (Pod.mk "p1" [("k", "v")] "Succeeded")]
        (Pod.mk "p1" [("k", "v")] "Succeeded")
        (Pod.mk "p1" [("k", "v")] "Succeeded")) = 1
    ∧ ∃ t1 t2, handoffTrace "a" "b" 0 0
        [MEvent.getJob, MEvent.listPods, MEvent.openStream "p1",
         MEvent.createLogFile "p1.logs", MEvent.copyStream,
         MEvent.getPod "p1", MEvent.createStatusFile "p1.json",
         MEvent.writeStatus (Pod.mk "p1" [("k", "v")] "Succeeded")]
        [MEvent.getJob, MEvent.listPods, MEvent.openStream "p1",
         MEvent.createLogFile "p1.logs", MEvent.copyStream,
         MEvent.getPod "p1", MEvent.createStatusFile "p1.json",
         MEvent.writeStatus (Pod.mk "p1" [("k", "v")] "Succeeded")]
        (Pod.mk "p1" [("k", "v")] "Succeeded")
        (Pod.mk "p1" [("k", "v")] "Succeeded")
        = t1 ++ WEvent.monitorEnd "a" (Pod.mk "p1" [("k", "v")] "Succeeded")
            :: t2
        ∧ WEvent.monitorStart "b" ∉ t1 ∧ WEvent.monitorStart "b" ∈ t2 :=
  tracker_single_transition_sequential_handoff "a" "b" 0 0
    ⟨Except.ok [("k", "v")],
     [Except.ok [Pod.mk "p1" [("k", "v")] "Running"]],
     ⟨Except.ok (), Except.ok (), Except.ok (),
      [Except.ok (Pod.mk "p1" [("k", "v")] "Succeeded")], Except.ok ()⟩,
     none, 1⟩
    ⟨Except.ok [("k", "v")],
     [Except.ok [Pod.mk "p1" [("k", "v")] "Running"]],
     ⟨Except.ok (), Except.ok (), Except.ok (),
      [Except.ok (Pod.mk "p1" [("k", "v")] "Succeeded")], Except.ok ()⟩,
     none, 1⟩
    [MEvent.getJob, MEvent.listPods, MEvent.openStream "p1",
     MEvent.createLogFile "p1.logs", MEvent.copyStream,
     MEvent.getPod "p1", MEvent.createStatusFile "p1.json",
     MEvent.writeStatus (Pod.mk "p1" [("k", "v")] "Succeeded")]
    [MEvent.getJob, MEvent.listPods, MEvent.openStream "p1",
     MEvent.createLogFile "p1.logs", MEvent.copyStream,
     MEvent.getPod "p1", MEvent.createStatusFile "p1.json",
     MEvent.writeStatus (Pod.mk "p1" [("k", "v")] "Succeeded")]
    (Pod.mk "p1" [("k", "v")] "Succeeded")
    (Pod.mk "p1" [("k", "v")] "Succeeded")
    (by decide) (by decide) (by decide) (by decide)

/-- C3: when a poll of the scheduled-job resource reports two or more
simultaneously active executions, `watch` terminates at once with the
invariant-violation error (main.go:79-81): the only event of the run is
that single CronJob poll (so no further polling happens, no transition
fires and no monitor starts), the remaining trace is never consumed,
and the outcome carries the unchanged last-seen identity. -/
theorem multiple_active_invariant_violation (lastSeen a b : String)
    (rest' : List String) (restPolls : List CronPoll)
    (menvs : List MonitorEnv) :
    watchGo lastSeen (Except.ok (a :: b :: rest') :: restPolls) menvs
      = ([WEvent.getCronJob],
         WatchOutcome.panicked lastSeen
           (WatchPanic.invariantViolation (rest'.length + 2)))
    ∧ countTransitions a [WEvent.getCronJob] = 0 := by
  exact ⟨rfl, rfl⟩

/-- C4 counterexample: a transport failure of the scheduled-job fetch
does not propagate as a typed error to the supervisor. `watch` passes
it straight to `panic` (main.go:70-72), bypassing the errgroup, so at
this concrete input the pipeline outcome is a panic and no error value
ever reaches the supervisor's first-error reporting. -/
theorem transport_failure_panic_not_returned :
    (watchGo "" [Except.error "connection refused"] []).2
      = WatchOutcome.panicked "" (WatchPanic.fetchErr "connection refused")
    ∧ reachesSupervisor
        (watchGo "" [Except.error "connection refused"] []).2 = false :=
  ⟨rfl, rfl⟩

/-- C4 as amended: every transport/API failure is fatal to the
pipeline that encountered it and is never retried — the CronJob fetch,
the Job get, the pod listing, the log-stream open and the pod status
get each abort their loop at once, consuming none of the remaining
trace — and `monitor`'s failures propagate to `watch` as typed errors;
but `watch` panics on every error (its own fetch failures and the
monitor's returned errors alike) instead of returning it to the
errgroup supervisor. -/
theorem transport_failures_fatal_unretried_panic :
    (∀ (lastSeen e : String) (rest : List CronPoll)
        (menvs : List MonitorEnv),
      watchGo lastSeen (Except.error e :: rest) menvs
        = ([WEvent.getCronJob],
           WatchOutcome.panicked lastSeen (WatchPanic.fetchErr e)))
    ∧ (∀ (e : String) (snaps : List (Except String (List Pod)))
        (se : StreamEnv) (c : Option Nat) (fl : Nat),
      monitor ⟨Except.error e, snaps, se, c, fl⟩
        = ([MEvent.getJob],
           MonitorOutcome.err (MonitorErr.gettingJob e)))
    ∧ (∀ (selector : String) (c : Option Nat) (se : StreamEnv)
        (i fuel : Nat) (e : String)
        (srest : List (Except String (List Pod))),
      ¬doneReady c i = true →
      listPodsLoop selector c se i (Except.error e :: srest) (fuel + 1)
        = ([MEvent.listPods],
           MonitorOutcome.err (MonitorErr.listingPods e)))
    ∧ (∀ (p : Pod) (e : String) (cl cp : Except String Unit)
        (fg : List (Except String Pod)) (cs : Except String Unit),
      runStream p ⟨Except.error e, cl, cp, fg, cs⟩
        = ([MEvent.openStream p.name],
           MonitorOutcome.err (MonitorErr.gettingLogStream e)))
    ∧ (∀ (name e : String) (rest : List (Except String Pod)),
      podFinishing name (Except.error e :: rest)
        = ([MEvent.getPod name], PFOut.err e))
    ∧ (∀ (lastSeen a : String) (rest : List CronPoll)
        (menv : MonitorEnv) (mrest : List MonitorEnv)
        (mevs : List MEvent) (me : MonitorErr),
      ¬a = lastSeen →
      monitor menv = (mevs, MonitorOutcome.err me) →
      watchGo lastSeen (Except.ok [a] :: rest) (menv :: mrest)
        = (WEvent.getCronJob :: WEvent.transition a ::
            WEvent.monitorStart a :: mevs.map (WEvent.monitorEvent a),
           WatchOutcome.panicked a (WatchPanic.monitorErr me))) := by
  refine ⟨fun lastSeen e rest menvs => rfl,
    fun e snaps se c fl => rfl,
    fun selector c se i fuel e srest hd =>
      listPodsLoop_listErr selector c se i fuel e srest hd,
    fun p e cl cp fg cs => rfl,
    fun name e rest => rfl,
    fun lastSeen a rest menv mrest mevs me hne hmon => ?_⟩
  simp [watchGo, hne, hmon]

/-- Witness for C4's amended statement at a concrete input: a
transition to `job-1` whose monitor fails to get the Job with error
`boom`; `watch` panics with the typed monitor error. -/
theorem transport_failures_fatal_unretried_panic_witness :
    watchGo "" [Except.ok ["job-1"]]
        [⟨Except.error "boom", [],
          ⟨Except.ok (), Except.ok (), Except.ok (), [], Except.ok ()⟩,
          none, 0⟩]
      = (WEvent.getCronJob :: WEvent.transition "job-1" ::
          WEvent.monitorStart "job-1" ::
          [MEvent.getJob].map (WEvent.monitorEvent "job-1"),
         WatchOutcome.panicked "job-1"
           (WatchPanic.monitorErr (MonitorErr.gettingJob "boom"))) :=
  transport_failures_fatal_unretried_panic.2.2.2.2.2 "" "job-1" []
    ⟨Except.error "boom", [],
     ⟨Except.ok (), Except.ok (), Except.ok (), [], Except.ok ()⟩,
     none, 0⟩
    [] [MEvent.getJob] (MonitorErr.gettingJob "boom")
    (by decide) (by decide)

/-- C5: once the shared cancellation signal has fired (`cancelAt = some
k` with `k ≤ i`), every further iteration of `monitor`'s pod-list loop
takes the `select`'s `ctx.Done()` case, whose body is empty
(main.go:110-112): the loop issues no API call at all, writes no status
record — and never exits, whatever fuel it is given; the outcome stays
`looping` and never becomes `ok` or `err`. -/
theorem cancellation_spins_without_api_calls (selector : String)
    (se : StreamEnv) (snaps : List (Except String (List Pod)))
    (i k fuel : Nat) (h : k ≤ i) :
    listPodsLoop selector (some k) se i snaps fuel
      = ([], MonitorOutcome.looping) := by
  induction fuel generalizing i with
  | zero => rfl
  | succ fuel ih =>
    have hd : doneReady (some k) i = true := by
      simp [doneReady]
      omega
    simp only [listPodsLoop, hd, if_pos]
    exact ih (i + 1) (Nat.le_succ_of_le h)

/-- Witness for C5 at a concrete input: the signal fired at iteration 0
and the loop is at iteration 0 with three snapshots and fuel 5. -/
theorem cancellation_spins_without_api_calls_witness :
    listPodsLoop "app=x" (some 0)
      ⟨Except.ok (), Except.ok (), Except.ok (),
       [Except.ok ⟨"p1", [], "Succeeded"⟩], Except.ok ()⟩
      0
      [Except.ok [], Except.ok [⟨"p1", [], "Running"⟩], Except.ok []]
      5
      = ([], MonitorOutcome.looping) :=
  cancellation_spins_without_api_calls "app=x" _ _ 0 0 5 (by decide)

/-- C6: over any run of polls that each report either zero active
executions or exactly one active execution equal to the current
last-seen identity, `watch` only polls and sleeps (main.go:73-92): the
event trace is exactly the idle poll/sleep pairs — no transition fires,
no monitor starts — and the last-seen identity is unchanged at the
end. -/
theorem idle_polls_no_transition (lastSeen : String) (polls : List CronPoll)
    (menvs : List MonitorEnv)
    (h : ∀ p ∈ polls, p = Except.ok [] ∨ p = Except.ok [lastSeen]) :
    watchGo lastSeen polls menvs
      = (idleEvents polls.length, WatchOutcome.outOfTrace lastSeen)
    ∧ ∀ id, countTransitions id (idleEvents polls.length) = 0 := by
  refine ⟨?_, fun id => countTransitions_idleEvents id polls.length⟩
  induction polls with
  | nil => rfl
  | cons p rest ih =>
    have hrest := ih (fun q hq => h q (List.mem_cons_of_mem p hq))
    rcases h p (List.mem_cons_self p rest) with hp | hp
    · subst hp
      simp [watchGo, idleEvents, hrest]
    · subst hp
      simp [watchGo, idleEvents, hrest]

/-- Witness for C6 at a concrete input: last-seen `"x"`, one
zero-active poll followed by one poll repeating `"x"`. -/
theorem idle_polls_no_transition_witness :
    watchGo "x" [Except.ok [], Except.ok ["x"]] []
      = (idleEvents 2, WatchOutcome.outOfTrace "x")
    ∧ ∀ id, countTransitions id (idleEvents 2) = 0 :=
  idle_polls_no_transition "x" [Except.ok [], Except.ok ["x"]] []
    (by decide)

/-- C9: `getRunning` (main.go:174-181) either selects the first pod of
the list in listing order whose phase is `Running` — every pod before
it is non-Running — and reports `true`, or, when no pod of the list is
running, returns the empty Pod struct and reports `false`. -/
theorem getRunning_first_running_or_absent (pods : List Pod) :
    (∃ pre rest, pods = pre ++ (getRunning pods).1 :: rest
      ∧ (∀ q ∈ pre, q.phase ≠ PodRunning)
      ∧ (getRunning pods).1.phase = PodRunning
      ∧ (getRunning pods).2 = true)
    ∨ ((∀ q ∈ pods, q.phase ≠ PodRunning)
      ∧ getRunning pods = (⟨"", [], ""⟩, false)) := by
  induction pods with
  | nil => exact Or.inr ⟨by simp, rfl⟩
  | cons p rest ih =>
    by_cases hp : p.phase = PodRunning
    · left
      refine ⟨[], rest, ?_, by simp, ?_, ?_⟩ <;> simp [getRunning, hp]
    · have hstep : getRunning (p :: rest) = getRunning rest := by
        simp [getRunning, hp]
      rcases ih with ⟨pre, rest', hdec, hpre, hph, hsel⟩ | ⟨hall, heq⟩
      · left
        refine ⟨p :: pre, rest', ?_, ?_, ?_, ?_⟩
        · rw [hstep, List.cons_append, ← hdec]
        · intro q hq
          rcases List.mem_cons.mp hq with hq | hq
          · subst hq; exact hp
          · exact hpre q hq
        · rw [hstep]; exact hph
        · rw [hstep]; exact hsel
      · right
        refine ⟨?_, by rw [hstep]; exact heq⟩
        intro q hq
        rcases List.mem_cons.mp hq with hq | hq
        · subst hq; exact hp
        · exact hall q hq

/-- C7: over any run of worker-unit list snapshots whose first `k`
filtered listings contain no `Running` unit, `monitor`'s pod-list loop
(main.go:113-126) only polls the filtered listing during those `k`
iterations — the event trace for them is exactly one pod listing each,
with no stream opened — and upon the first snapshot whose listing does
contain a `Running` unit it opens the log stream for that unit and
begins streaming. -/
theorem stream_begins_at_first_running_snapshot (selector : String)
    (se : StreamEnv) (ns : List Pod)
    (rest : List (Except String (List Pod))) :
    ∀ (pre : List (Except String (List Pod))) (fuel i : Nat),
    (∀ x ∈ pre, ∃ pl, x = Except.ok pl
      ∧ (getRunning (listWorkerUnits selector pl)).2 = false) →
    (getRunning (listWorkerUnits selector ns)).2 = true →
    pre.length + 1 ≤ fuel →
    ∃ tail out,
      listPodsLoop selector none se i (pre ++ Except.ok ns :: rest) fuel
        = (pre.map (fun _ => MEvent.listPods) ++ MEvent.listPods ::
            MEvent.openStream
              (getRunning (listWorkerUnits selector ns)).1.name :: tail,
           out) := by
  intro pre
  induction pre with
  | nil =>
    intro fuel i hpre hrun hfuel
    obtain ⟨fuel, rfl⟩ : ∃ f, fuel = f + 1 := by
      cases fuel with
      | zero => omega
      | succ f => exact ⟨f, rfl⟩
    rcases hgr : getRunning (listWorkerUnits selector ns) with ⟨rp, b⟩
    have hb : b = true := by rw [hgr] at hrun; exact hrun
    subst hb
    obtain ⟨tail, htail⟩ := runStream_head rp se
    refine ⟨tail, (runStream rp se).2, ?_⟩
    rw [List.nil_append,
      listPodsLoop_running selector none se i fuel ns rest rp
        (by simp [doneReady]) hgr, htail]
    simp [hgr]
  | cons x pre ih =>
    intro fuel i hpre hrun hfuel
    obtain ⟨f, rfl⟩ : ∃ f, fuel = f + 1 := by
      cases fuel with
      | zero => simp at hfuel
      | succ f => exact ⟨f, rfl⟩
    obtain ⟨pl, rfl, hnor⟩ := hpre x (List.mem_cons_self x pre)
    rcases hgr0 : getRunning (listWorkerUnits selector pl) with ⟨rp0, b0⟩
    have hb0 : b0 = false := by rw [hgr0] at hnor; exact hnor
    subst hb0
    obtain ⟨tail, out, hrec⟩ := ih f (i + 1)
      (fun y hy => hpre y (List.mem_cons_of_mem _ hy)) hrun
      (by simpa using hfuel)
    refine ⟨tail, out, ?_⟩
    rw [List.cons_append,
      listPodsLoop_noRunning selector none se i f pl
        (pre ++ Except.ok ns :: rest) rp0 (by simp [doneReady]) hgr0,
      hrec]
    simp

/-- Witness for C7 at the spec's scenario: the filtered listing
transitions `[]` → `[Pending]` → `[Running]`; the stream for pod `w1`
opens exactly at the third listing. -/
theorem stream_begins_at_first_running_snapshot_witness :
    ∃ tail out,
      listPodsLoop "" none
        ⟨Except.ok (), Except.ok (), Except.ok (),
         [Except.ok (Pod.mk "w1" [] "Succeeded")], Except.ok ()⟩
        0
        ([Except.ok [], Except.ok [Pod.mk "w1" [] "Pending"]] ++
          Except.ok [Pod.mk "w1" [] "Running"] :: [])
        3
        = ((([Except.ok [], Except.ok [Pod.mk "w1" [] "Pending"]] :
              List (Except String (List Pod))).map
              (fun _ => MEvent.listPods)) ++ MEvent.listPods ::
            MEvent.openStream
              (getRunning
                (listWorkerUnits "" [Pod.mk "w1" [] "Running"])).1.name ::
            tail,
           out) :=
  stream_begins_at_first_running_snapshot ""
    ⟨Except.ok (), Except.ok (), Except.ok (),
     [Except.ok (Pod.mk "w1" [] "Succeeded")], Except.ok ()⟩
    [Pod.mk "w1" [] "Running"] []
    [Except.ok [], Except.ok [Pod.mk "w1" [] "Pending"]] 3 0
    (by
      intro x hx
      rcases List.mem_cons.mp hx with rfl | hx
      · exact ⟨[], rfl, rfl⟩
      · rcases List.mem_cons.mp hx with rfl | hx
        · exact ⟨[Pod.mk "w1" [] "Pending"], rfl, rfl⟩
        · cases hx)
    (by decide) (by decide)

/-- C10: when the execution's Job carries no labels, the selector the
accumulation loop (main.go:100-105) derives is the empty string, so the
pod listing is unfiltered and returns every pod of the namespace; when
any pod of the namespace is running, the monitor therefore opens the
log stream of the first running pod of the namespace — the namespace
snapshot and its pods' labels are arbitrary, so that pod need not
belong to the execution at all. -/
theorem empty_labels_unfiltered_listing (namespacePods : List Pod)
    (se : StreamEnv) (snapshotsRest : List (Except String (List Pod)))
    (fuel : Nat) :
    labelSelectorOf [] = ""
    ∧ listWorkerUnits (labelSelectorOf []) namespacePods = namespacePods
    ∧ ((getRunning namespacePods).2 = true →
        ∃ tail out,
          monitor ⟨Except.ok [], Except.ok namespacePods :: snapshotsRest,
              se, none, fuel + 1⟩
            = (MEvent.getJob :: MEvent.listPods ::
                MEvent.openStream (getRunning namespacePods).1.name :: tail,
               out)) := by
  refine ⟨rfl, listWorkerUnits_empty namespacePods, fun hrun => ?_⟩
  rcases hgr : getRunning namespacePods with ⟨rp, b⟩
  have hb : b = true := by rw [hgr] at hrun; exact hrun
  subst hb
  obtain ⟨tail, htail⟩ := runStream_head rp se
  refine ⟨tail, (runStream rp se).2, ?_⟩
  have hsel : labelSelectorOf [] = "" := rfl
  have hgr' : getRunning (listWorkerUnits (labelSelectorOf []) namespacePods)
      = (rp, true) := by
    rw [hsel, listWorkerUnits_empty namespacePods]
    exact hgr
  simp only [monitor]
  rw [listPodsLoop_running (labelSelectorOf []) none se 0 fuel
    namespacePods snapshotsRest rp (by simp [doneReady]) hgr', htail]

/-- Witness for C10 at a concrete input: a label-less Job over a
namespace holding one running pod `stranger` whose labels
(`app=other`) belong to nobody in particular; its stream is opened
anyway. -/
theorem empty_labels_unfiltered_listing_witness :
    ∃ tail out,
      monitor ⟨Except.ok [],
          Except.ok [Pod.mk "stranger" [("app", "other")] "Running"] :: [],
          ⟨Except.ok (), Except.ok (), Except.ok (),
           [Except.ok (Pod.mk "stranger" [("app", "other")] "Succeeded")],
           Except.ok ()⟩, none, 0 + 1⟩
        = (MEvent.getJob :: MEvent.listPods ::
            MEvent.openStream
              (getRunning
                [Pod.mk "stranger" [("app", "other")] "Running"]).1.name ::
            tail,
           out) :=
  (empty_labels_unfiltered_listing
    [Pod.mk "stranger" [("app", "other")] "Running"]
    ⟨Except.ok (), Except.ok (), Except.ok (),
     [Except.ok (Pod.mk "stranger" [("app", "other")] "Succeeded")],
     Except.ok ()⟩ [] 0).2.2 (by decide)

/-- C8: the persisted status record of a terminal worker unit — the
appended line `<worker-unit-name>=<phase>` — parses back to exactly
that name and that phase. The hypothesis that the name holds no `'='`
is satisfied by every worker-unit name the orchestrator can produce
(names are DNS labels: alphanumerics and dashes). -/
theorem status_record_round_trip (name phase : String)
    (h : '=' ∉ name.data) :
    parseStatusLine (statusLine name phase) = some (name, phase) := by
  obtain ⟨nd⟩ := name
  obtain ⟨pd⟩ := phase
  have hdata : (statusLine ⟨nd⟩ ⟨pd⟩).data = nd ++ '=' :: (pd ++ ['\n']) := by
    simp [statusLine, String.data_append]
  rw [parseStatusLine, hdata, splitAtEq_append nd (pd ++ ['\n']) h]
  simp [dropLastNewline_append]

/-- Witness for C8 at the spec's concrete example: worker unit
`job-x-abc12` with terminal phase `Succeeded`. -/
theorem status_record_round_trip_witness :
    parseStatusLine (statusLine "job-x-abc12" "Succeeded")
      = some ("job-x-abc12", "Succeeded") :=
  status_record_round_trip "job-x-abc12" "Succeeded" (by decide)

end Kmon
